import Mathlib

/-!
Shallow embedding of `voipms/entities/calls.py` (the `Calls` endpoint of a
VoIP HTTP API client) and verification of its parameter-validation and
forwarding behaviour.

Python dynamic values are embedded as the inductive `Value`; Python's
`isinstance` checks, truthiness, and keyword-argument dictionaries are
modelled explicitly.  The delegated transport call `self._voipms_client._get`
is modelled by returning the (method, parameters) pair, or, for `get_cdr`,
by applying an abstract transport function and recording the trace of
delegated calls.
-/

/-- A point in time: calendar date plus seconds within the day.
`validate_date` produces midnight (`seconds = 0`); the current time
(`datetime.now()`) is an arbitrary `PyDateTime`. -/
structure PyDateTime where
  year : Nat
  month : Nat
  day : Nat
  seconds : Nat
deriving DecidableEq, Repr

/-- Lexicographic strict order on date-times, as Python compares
`datetime` objects. -/
def PyDateTime.ltb (x y : PyDateTime) : Bool :=
  if x.year ≠ y.year then Nat.blt x.year y.year
  else if x.month ≠ y.month then Nat.blt x.month y.month
  else if x.day ≠ y.day then Nat.blt x.day y.day
  else Nat.blt x.seconds y.seconds

/-- Embedding of the Python values that can reach this module's interface. -/
inductive Value where
  | str : String → Value
  | int : Int → Value
  | bool : Bool → Value
  | none : Value
deriving DecidableEq, Repr

/-- Python `isinstance(v, str)`. -/
def Value.isInstStr : Value → Bool
  | .str _ => true
  | _ => false

/-- Python `isinstance(v, int)`.  Note that in Python `bool` is a subclass
of `int`, so boolean values satisfy this check. -/
def Value.isInstInt : Value → Bool
  | .int _ => true
  | .bool _ => true
  | _ => false

/-- Python `isinstance(v, bool)`. -/
def Value.isInstBool : Value → Bool
  | .bool _ => true
  | _ => false

/-- Python truthiness (`if v:`): `None`, `False`, `0` and `""` are falsy. -/
def Value.truthy : Value → Bool
  | .str s => s != ""
  | .int i => i != 0
  | .bool b => b
  | .none => false

/-- The boolean payload of a `Value`; used only after an `isInstBool` check
has succeeded. -/
def Value.asBool : Value → Bool
  | .bool b => b
  | _ => false

/-- Split a character list at every dash, keeping empty groups, as
`"a-b-c".split("-")` does. -/
def splitDash : List Char → List (List Char)
  | [] => [[]]
  | c :: rest =>
    let r := splitDash rest
    if c = '-' then [] :: r
    else
      match r with
      | [] => [[c]]
      | g :: gs => (c :: g) :: gs

/-- A nonempty all-digit character group. -/
def isDigitGroup (l : List Char) : Bool :=
  !l.isEmpty && l.all Char.isDigit

/-- Numeric value of a decimal digit string (most significant first). -/
def digitsVal (acc : Nat) : List Char → Nat
  | [] => acc
  | c :: cs => digitsVal (acc * 10 + (c.toNat - 48)) cs

/-- Days in a month of the Gregorian calendar. -/
def daysInMonth (y m : Nat) : Nat :=
  if m = 2 then (if y % 4 = 0 && (y % 100 ≠ 0 || y % 400 = 0) then 29 else 28)
  else if m = 4 || m = 6 || m = 9 || m = 11 then 30
  else 31

/-- Modelled from the spec: `voipms.helpers.validate_date` is not under
`src/`; per the spec each date is "parsed from a fixed string format"
(`YYYY-MM-DD`), and "parse failure is a hard error" (a validation error).
A successful parse yields midnight of that calendar date. -/
def validate_date (s : String) : Except String PyDateTime :=
  match splitDash s.toList with
  | [ys, ms, ds] =>
    if isDigitGroup ys && isDigitGroup ms && isDigitGroup ds then
      let y := digitsVal 0 ys
      let m := digitsVal 0 ms
      let d := digitsVal 0 ds
      if 1 ≤ m && m ≤ 12 && 1 ≤ d && d ≤ daysInMonth y m then
        Except.ok ⟨y, m, d, 0⟩
      else Except.error "The date needs to be a valid date in the format YYYY-MM-DD"
    else Except.error "The date needs to be a valid date in the format YYYY-MM-DD"
  | _ => Except.error "The date needs to be a valid date in the format YYYY-MM-DD"

/-- Modelled from the spec: `voipms.helpers.convert_bool` is not under
`src/`; per the spec each boolean flag "is serialized to the transport's
expected boolean encoding (not raw true/false)", a "boolean-as-string"
primitive. -/
def convert_bool (b : Bool) : String :=
  if b then "1" else "0"

/-! ### Error messages of `calls.py`, verbatim (typos included) -/

def msgClientInt : String := "ID for a specific Reseller Client as int (Example: 561115)"

def msgDateFromStr : String := "Start Date for Filtering CDR needs to be str (Example: '2010-11-30')"

def msgDateToStr : String := "End Date for Filtering CDR needs to be str (Example: '2010-11-30')"

def msgDateOrder : String := "The start date needs to be ealier or the same as the end date."

def msgDateFuture : String := "The end date can't be in the future."

def msgTimezoneInt : String := "Adjust time of calls according to Timezome needs to be int (Numeric: -12 to 13)"

def msgAnsweredBool : String := "Include Answered Calls to CDR needs to be bool (Default: False, Boolean: True/False)"

def msgNoanswerBool : String := "Include NoAnswered calls to CDR needs to be bool (Default: False, Boolean: True/False)"

def msgBusyBool : String := "Include Busy Calls to CDR needs to be bool (Default: False, Boolean: True/False)"

def msgFailedBool : String := "Include Failed Calls to CDR needs to be bool (Default: False, Boolean: True/False)"

def msgNoCallStatus : String := "No Call Status was provided. One of the following parameters needs to be set to True: answered, noanswer, busy, failed"

def msgCalltypeStr : String := "Filters CDR by Call Type needs to be a str (Values from calls.get_call_types)"

def msgCallbillingStr : String := "Filter CDR by Call Billing needs to be a str (Values from calls.get_call_billing)"

def msgAccountInt : String := "Filter CDR by Account needs to be an in (Values from calls.get_call_accounts)"

/-! ### Keyword-argument dictionaries

Python `**kwargs` dictionaries are embedded as insertion-ordered
association lists; `key in kwargs` is `List.lookup`, `kwargs.pop(key)` is
removal of that key, and `kwargs.items()` iterates in list order. -/

/-- `kwargs.pop(key)`'s effect on the dictionary: drop the entry for `key`. -/
def removeKey (kwargs : List (String × Value)) (key : String) : List (String × Value) :=
  kwargs.filter (fun p => p.1 != key)

/-- One optional-filter step of `get_cdr` (lines 141–154): if `key` is
present in the kwargs, type-check its value with `check` (raising `errMsg`
on failure), append it to the parameter mapping and pop it. The state is
(parameters built so far, remaining kwargs). -/
def popKey (check : Value → Bool) (errMsg : String) (key : String)
    (st : List (String × Value) × List (String × Value)) :
    Except String (List (String × Value) × List (String × Value)) :=
  match List.lookup key st.2 with
  | some v =>
    if check v then Except.ok (st.1 ++ [(key, v)], removeKey st.2 key)
    else Except.error errMsg
  | Option.none => Except.ok st

/-- The trailing-space concatenation built by the `for key, value in
kwargs.items()` loop, and the "Parameters not allowed" message (line 161). -/
def notAllowedMsg (leftover : List (String × Value)) : String :=
  "Parameters not allowed: " ++ String.join (leftover.map (fun p => p.1 ++ " "))

/-- Optional-filter handling of `get_cdr` (lines 141–161): pop and
type-check `calltype`, `callbilling`, `account` in that order, then reject
any remaining kwargs, listing all their keys in one message. -/
def processExtras (params kwargs : List (String × Value)) :
    Except String (List (String × Value)) :=
  match popKey Value.isInstStr msgCalltypeStr "calltype" (params, kwargs) with
  | .error e => Except.error e
  | .ok st1 =>
    match popKey Value.isInstStr msgCallbillingStr "callbilling" st1 with
    | .error e => Except.error e
    | .ok st2 =>
      match popKey Value.isInstInt msgAccountInt "account" st2 with
      | .error e => Except.error e
      | .ok st3 =>
        if st3.2.length > 0 then Except.error (notAllowedMsg st3.2)
        else Except.ok st3.1

/-- `get_cdr` from the timezone check on (lines 113–162, network call
excluded): type-check `timezone` and the four status flags, require at
least one flag true, build the base parameter mapping (flags serialized
through `convert_bool`), then handle the optional filters. -/
def checkFlagsAndBuild (sdf sdt : String) (tz a na b f : Value)
    (kwargs : List (String × Value)) : Except String (List (String × Value)) :=
  if tz.isInstInt = false then Except.error msgTimezoneInt
  else if a.isInstBool = false then Except.error msgAnsweredBool
  else if na.isInstBool = false then Except.error msgNoanswerBool
  else if b.isInstBool = false then Except.error msgBusyBool
  else if f.isInstBool = false then Except.error msgFailedBool
  else if (a.asBool || na.asBool || b.asBool || f.asBool) = false then
    Except.error msgNoCallStatus
  else
    processExtras
      [("date_from", Value.str sdf), ("date_to", Value.str sdt), ("timezone", tz),
       ("answered", Value.str (convert_bool a.asBool)),
       ("noanswer", Value.str (convert_bool na.asBool)),
       ("busy", Value.str (convert_bool b.asBool)),
       ("failed", Value.str (convert_bool f.asBool))] kwargs

/-- The validation-and-build phase of `Calls.get_cdr` (lines 65–161):
everything the method does before the delegated call.  `now` embeds
`datetime.now()` at the moment of the call.  Returns the parameter mapping
to forward, or the first validation error. -/
def get_cdr_run (now : PyDateTime) (date_from date_to tz a na b f : Value)
    (kwargs : List (String × Value)) : Except String (List (String × Value)) :=
  match date_from with
  | .str sdf =>
    match date_to with
    | .str sdt =>
      match validate_date sdf with
      | .error e => Except.error e
      | .ok d1 =>
        match validate_date sdt with
        | .error e => Except.error e
        | .ok d2 =>
          if PyDateTime.ltb d2 d1 then Except.error msgDateOrder
          else if PyDateTime.ltb now d2 then Except.error msgDateFuture
          else checkFlagsAndBuild sdf sdt tz a na b f kwargs
    | _ => Except.error msgDateToStr
  | _ => Except.error msgDateFromStr

/-- `Calls.get_cdr` with the delegated call made explicit: `transport` is
`self._voipms_client._get`; the second component records the delegated
calls made (method name and parameters), so that "no network call occurs"
is the empty trace. -/
def get_cdr (now : PyDateTime) (transport : String → List (String × Value) → Value)
    (date_from date_to tz a na b f : Value) (kwargs : List (String × Value)) :
    Except String Value × List (String × List (String × Value)) :=
  match get_cdr_run now date_from date_to tz a na b f kwargs with
  | .error e => (Except.error e, [])
  | .ok params => (Except.ok (transport "getCDR" params), [("getCDR", params)])

/-- `Calls.get_call_accounts` (lines 15–33): returns the (method,
parameters) pair forwarded to the transport, or the validation error. -/
def get_call_accounts (client : Value) :
    Except String (String × List (String × Value)) :=
  if client.truthy then
    if client.isInstInt = false then Except.error msgClientInt
    else Except.ok ("getCallAccounts", [("client", client)])
  else Except.ok ("getCallAccounts", [])

/-- `Calls.get_call_types` (lines 45–63): same validation as
`get_call_accounts`, against method "getCallTypes". -/
def get_call_types (client : Value) :
    Except String (String × List (String × Value)) :=
  if client.truthy then
    if client.isInstInt = false then Except.error msgClientInt
    else Except.ok ("getCallTypes", [("client", client)])
  else Except.ok ("getCallTypes", [])

/-! ### String containment, for claims about error-message contents -/

/-- `pat` occurs as a contiguous run in `l`. -/
def listContains : List Char → List Char → Bool
  | l, pat =>
    match l with
    | [] => pat.isEmpty
    | _ :: rest => List.isPrefixOf pat l || listContains rest pat

/-- Substring occurrence on strings (Python's `in` operator). -/
def strContains (s pat : String) : Bool :=
  listContains s.toList pat.toList

/-! ### Specification side: the ordered validation-rule list of §4.1

These definitions follow the spec's words (the ordered list of validation
rules for `get_call_detail_records`), to be compared with the embedded
code `get_cdr_run`. -/

/-- The spec's validation rules for `get_call_detail_records`, in its
stated order. -/
inductive RuleId where
  | dateFromStr
  | dateToStr
  | dateParse
  | dateOrder
  | dateFuture
  | timezoneInt
  | flagBool
  | atLeastOneFlag
  | extraTyped
  | unknownKeys
deriving DecidableEq, Repr

/-- Whether some present whitelisted extra key has an ill-typed value
(`calltype`/`callbilling` must be strings, `account` an integer). -/
def badTyped (kwargs : List (String × Value)) : Bool :=
  (match List.lookup "calltype" kwargs with
   | some v => !v.isInstStr
   | Option.none => false) ||
  (match List.lookup "callbilling" kwargs with
   | some v => !v.isInstStr
   | Option.none => false) ||
  (match List.lookup "account" kwargs with
   | some v => !v.isInstInt
   | Option.none => false)

/-- The extra keys outside the whitelist {calltype, callbilling, account},
in insertion order. -/
def extraLeftover (kwargs : List (String × Value)) : List (String × Value) :=
  kwargs.filter (fun p =>
    p.1 != "calltype" && p.1 != "callbilling" && p.1 != "account")

/-- The first violated rule among the extras rules (rules on the optional
filter mapping), per the spec's order: well-typedness before unknown-key
rejection. -/
def specExtrasRule (kwargs : List (String × Value)) : Option RuleId :=
  if badTyped kwargs then some RuleId.extraTyped
  else if !(extraLeftover kwargs).isEmpty then some RuleId.unknownKeys
  else Option.none

/-- The first violated rule among the typing rules on `timezone` and the
status flags, the at-least-one-flag rule, and the extras rules, per the
spec's order. -/
def specFlagsRule (tz a na b f : Value) (kwargs : List (String × Value)) :
    Option RuleId :=
  if !tz.isInstInt then some RuleId.timezoneInt
  else if !a.isInstBool || !na.isInstBool || !b.isInstBool || !f.isInstBool then
    some RuleId.flagBool
  else if !(a.asBool || na.asBool || b.asBool || f.asBool) then
    some RuleId.atLeastOneFlag
  else specExtrasRule kwargs

/-- Modelled from the spec: the first violated rule of §4.1's ordered
validation list for `get_call_detail_records`, or `none` when every rule
passes.  Written from the spec's words, independent of `get_cdr_run`. -/
def specFirstViolation (now : PyDateTime) (date_from date_to tz a na b f : Value)
    (kwargs : List (String × Value)) : Option RuleId :=
  match date_from with
  | .str sdf =>
    match date_to with
    | .str sdt =>
      match validate_date sdf, validate_date sdt with
      | .ok d1, .ok d2 =>
        if PyDateTime.ltb d2 d1 then some RuleId.dateOrder
        else if PyDateTime.ltb now d2 then some RuleId.dateFuture
        else specFlagsRule tz a na b f kwargs
      | _, _ => some RuleId.dateParse
    | _ => some RuleId.dateToStr
  | _ => some RuleId.dateFromStr

/-- The error messages the code may emit for each spec rule. -/
def ruleMsgs : RuleId → String → Bool
  | RuleId.dateFromStr, e => e == msgDateFromStr
  | RuleId.dateToStr, e => e == msgDateToStr
  | RuleId.dateParse, e =>
    e == "The date needs to be a valid date in the format YYYY-MM-DD"
  | RuleId.dateOrder, e => e == msgDateOrder
  | RuleId.dateFuture, e => e == msgDateFuture
  | RuleId.timezoneInt, e => e == msgTimezoneInt
  | RuleId.flagBool, e =>
    e == msgAnsweredBool || e == msgNoanswerBool || e == msgBusyBool || e == msgFailedBool
  | RuleId.atLeastOneFlag, e => e == msgNoCallStatus
  | RuleId.extraTyped, e =>
    e == msgCalltypeStr || e == msgCallbillingStr || e == msgAccountInt
  | RuleId.unknownKeys, e =>
    List.isPrefixOf ("Parameters not allowed: ").toList e.toList

/-- A concrete "current time" used for concrete runs: 2020-02-01, 00:00. -/
def exampleNow : PyDateTime := ⟨2020, 2, 1, 0⟩

/-- The parameter mapping of the spec's worked `get_cdr` example. -/
def exampleParams : List (String × Value) :=
  [("date_from", Value.str "2020-01-01"), ("date_to", Value.str "2020-01-31"),
   ("timezone", Value.int (-5)),
   ("answered", Value.str (convert_bool true)),
   ("noanswer", Value.str (convert_bool false)),
   ("busy", Value.str (convert_bool false)),
   ("failed", Value.str (convert_bool false))]

/-! ### Helper lemmas on keyword-dictionary operations -/

theorem lookup_none_removeKey (k : String) (l : List (String × Value))
    (h : List.lookup k l = Option.none) : removeKey l k = l := by
  induction l with
  | nil => rfl
  | cons hd tl ih =>
    obtain ⟨k0, v⟩ := hd
    by_cases hk : k = k0
    · subst hk; simp [List.lookup] at h
    · have h' : List.lookup k tl = Option.none := by
        simpa [List.lookup, beq_false_of_ne hk] using h
      have hne : (k0 != k) = true := by
        simp only [bne_iff_ne, ne_eq]
        exact fun e => hk e.symm
      simp only [removeKey, List.filter, hne]
      simpa [removeKey] using ih h'

theorem lookup_removeKey (k k' : String) (l : List (String × Value)) (h : k ≠ k') :
    List.lookup k (removeKey l k') = List.lookup k l := by
  induction l with
  | nil => rfl
  | cons hd tl ih =>
    obtain ⟨k0, v⟩ := hd
    by_cases h0 : k0 = k'
    · have hne0 : (k0 != k') = false := by simp [h0]
      have hkk : (k == k0) = false := beq_false_of_ne (h0 ▸ h)
      simp [removeKey, List.filter, hne0, List.lookup, hkk]
      simpa [removeKey] using ih
    · have hne : (k0 != k') = true := by simpa [bne_iff_ne] using h0
      by_cases hk : k = k0
      · subst hk
        simp [removeKey, List.filter, hne, List.lookup]
      · have hkk : (k == k0) = false := beq_false_of_ne hk
        simp [removeKey, List.filter, hne, List.lookup, hkk]
        simpa [removeKey] using ih

theorem removeKey_chain (l : List (String × Value)) :
    removeKey (removeKey (removeKey l "calltype") "callbilling") "account" =
      extraLeftover l := by
  simp only [removeKey, extraLeftover, List.filter_filter]
  apply List.filter_congr
  intro p _
  cases hA : (p.1 != "calltype") <;> cases hB : (p.1 != "callbilling") <;>
    cases hC : (p.1 != "account") <;> simp [hA, hB, hC]

/-- When every present occurrence of `key` is well-typed, the pop step
succeeds and leaves `removeKey kwargs key` behind. -/
theorem popKey_typed (check : Value → Bool) (msg key : String)
    (params kwargs : List (String × Value))
    (h : ∀ v, List.lookup key kwargs = some v → check v = true) :
    ∃ params2, popKey check msg key (params, kwargs) =
      Except.ok (params2, removeKey kwargs key) := by
  cases hl : List.lookup key kwargs with
  | none =>
    exact ⟨params, by simp [popKey, hl, lookup_none_removeKey _ _ hl]⟩
  | some v =>
    exact ⟨params ++ [(key, v)], by simp [popKey, hl, h v hl]⟩

/-- With all whitelisted extras well-typed and at least one unrecognized
key present, `processExtras` rejects with the message listing every
unrecognized key, space-separated, in insertion order. -/
theorem processExtras_unknown (params kwargs : List (String × Value))
    (hct : ∀ v, List.lookup "calltype" kwargs = some v → v.isInstStr = true)
    (hcb : ∀ v, List.lookup "callbilling" kwargs = some v → v.isInstStr = true)
    (hac : ∀ v, List.lookup "account" kwargs = some v → v.isInstInt = true)
    (hleft : extraLeftover kwargs ≠ []) :
    processExtras params kwargs = Except.error (notAllowedMsg (extraLeftover kwargs)) := by
  obtain ⟨p1, e1⟩ := popKey_typed Value.isInstStr msgCalltypeStr "calltype" params kwargs hct
  have hcb' : ∀ v, List.lookup "callbilling" (removeKey kwargs "calltype") = some v →
      v.isInstStr = true := by
    intro v hv
    exact hcb v (by rwa [lookup_removeKey _ _ _ (by decide)] at hv)
  obtain ⟨p2, e2⟩ := popKey_typed Value.isInstStr msgCallbillingStr "callbilling" p1
    (removeKey kwargs "calltype") hcb'
  have hac' : ∀ v, List.lookup "account"
      (removeKey (removeKey kwargs "calltype") "callbilling") = some v →
      v.isInstInt = true := by
    intro v hv
    rw [lookup_removeKey _ _ _ (by decide), lookup_removeKey _ _ _ (by decide)] at hv
    exact hac v hv
  obtain ⟨p3, e3⟩ := popKey_typed Value.isInstInt msgAccountInt "account" p2
    (removeKey (removeKey kwargs "calltype") "callbilling") hac'
  have hlen : 0 < (extraLeftover kwargs).length := List.length_pos.mpr hleft
  simp [processExtras, e1, e2, e3, removeKey_chain, hlen,
    Nat.not_eq_zero_of_lt hlen]

/-- With all whitelisted extras well-typed and no unrecognized key,
`processExtras` succeeds. -/
theorem processExtras_allKnown (params kwargs : List (String × Value))
    (hct : ∀ v, List.lookup "calltype" kwargs = some v → v.isInstStr = true)
    (hcb : ∀ v, List.lookup "callbilling" kwargs = some v → v.isInstStr = true)
    (hac : ∀ v, List.lookup "account" kwargs = some v → v.isInstInt = true)
    (hleft : extraLeftover kwargs = []) :
    ∃ p, processExtras params kwargs = Except.ok p := by
  obtain ⟨p1, e1⟩ := popKey_typed Value.isInstStr msgCalltypeStr "calltype" params kwargs hct
  have hcb' : ∀ v, List.lookup "callbilling" (removeKey kwargs "calltype") = some v →
      v.isInstStr = true := by
    intro v hv
    exact hcb v (by rwa [lookup_removeKey _ _ _ (by decide)] at hv)
  obtain ⟨p2, e2⟩ := popKey_typed Value.isInstStr msgCallbillingStr "callbilling" p1
    (removeKey kwargs "calltype") hcb'
  have hac' : ∀ v, List.lookup "account"
      (removeKey (removeKey kwargs "calltype") "callbilling") = some v →
      v.isInstInt = true := by
    intro v hv
    rw [lookup_removeKey _ _ _ (by decide), lookup_removeKey _ _ _ (by decide)] at hv
    exact hac v hv
  obtain ⟨p3, e3⟩ := popKey_typed Value.isInstInt msgAccountInt "account" p2
    (removeKey (removeKey kwargs "calltype") "callbilling") hac'
  refine ⟨p3, ?_⟩
  simp [processExtras, e1, e2, e3, removeKey_chain, hleft]

theorem isPrefixOf_append (l t : List Char) : List.isPrefixOf l (l ++ t) = true := by
  induction l with
  | nil => simp [List.isPrefixOf]
  | cons c cs ih => simp [List.isPrefixOf, ih]

/-- When every present whitelisted extra is well-typed, no typing rule on
the extras is violated. -/
theorem badTyped_eq_false (kwargs : List (String × Value))
    (hct : ∀ v, List.lookup "calltype" kwargs = some v → v.isInstStr = true)
    (hcb : ∀ v, List.lookup "callbilling" kwargs = some v → v.isInstStr = true)
    (hac : ∀ v, List.lookup "account" kwargs = some v → v.isInstInt = true) :
    badTyped kwargs = false := by
  have A : (match List.lookup "calltype" kwargs with
      | some v => !v.isInstStr
      | Option.none => false) = false := by
    cases hc : List.lookup "calltype" kwargs with
    | none => rfl
    | some v => simp [hct v hc]
  have B : (match List.lookup "callbilling" kwargs with
      | some v => !v.isInstStr
      | Option.none => false) = false := by
    cases hc : List.lookup "callbilling" kwargs with
    | none => rfl
    | some v => simp [hcb v hc]
  have C : (match List.lookup "account" kwargs with
      | some v => !v.isInstInt
      | Option.none => false) = false := by
    cases hc : List.lookup "account" kwargs with
    | none => rfl
    | some v => simp [hac v hc]
  simp only [badTyped, A, B, C, Bool.or_false]

/-- Conversely, if no typing rule on the extras is violated, every present
whitelisted extra is well-typed. -/
theorem typed_of_badTyped_false (kwargs : List (String × Value))
    (h : badTyped kwargs = false) :
    (∀ v, List.lookup "calltype" kwargs = some v → v.isInstStr = true) ∧
    (∀ v, List.lookup "callbilling" kwargs = some v → v.isInstStr = true) ∧
    (∀ v, List.lookup "account" kwargs = some v → v.isInstInt = true) := by
  refine ⟨?_, ?_, ?_⟩ <;> intro v hv <;>
    · simp only [badTyped, hv, Bool.or_eq_false_iff] at h
      simp_all

/-- When some present whitelisted extra is ill-typed, `processExtras`
rejects with one of the three whitelist typing messages. -/
theorem processExtras_badTyped (params kwargs : List (String × Value))
    (h : badTyped kwargs = true) :
    ∃ e, processExtras params kwargs = Except.error e ∧
      ruleMsgs RuleId.extraTyped e = true := by
  by_cases bad1 : ∃ v, List.lookup "calltype" kwargs = some v ∧ v.isInstStr = false
  · obtain ⟨v, hv, hvb⟩ := bad1
    exact ⟨msgCalltypeStr, by simp [processExtras, popKey, hv, hvb], by decide⟩
  · have hct : ∀ v, List.lookup "calltype" kwargs = some v → v.isInstStr = true := by
      intro v hv
      by_contra hb
      exact bad1 ⟨v, hv, by simpa using hb⟩
    obtain ⟨p1, e1⟩ := popKey_typed Value.isInstStr msgCalltypeStr "calltype" params kwargs hct
    by_cases bad2 : ∃ v, List.lookup "callbilling" kwargs = some v ∧ v.isInstStr = false
    · obtain ⟨v, hv, hvb⟩ := bad2
      have hv' : List.lookup "callbilling" (removeKey kwargs "calltype") = some v := by
        rw [lookup_removeKey _ _ _ (by decide)]
        exact hv
      refine ⟨msgCallbillingStr, ?_, by decide⟩
      simp only [processExtras]
      rw [e1]
      simp [popKey, hv', hvb]
    · have hcb : ∀ v, List.lookup "callbilling" kwargs = some v → v.isInstStr = true := by
        intro v hv
        by_contra hb
        exact bad2 ⟨v, hv, by simpa using hb⟩
      have hcb' : ∀ v, List.lookup "callbilling" (removeKey kwargs "calltype") = some v →
          v.isInstStr = true := by
        intro v hv
        exact hcb v (by rwa [lookup_removeKey _ _ _ (by decide)] at hv)
      obtain ⟨p2, e2⟩ := popKey_typed Value.isInstStr msgCallbillingStr "callbilling" p1
        (removeKey kwargs "calltype") hcb'
      have bad3 : ∃ v, List.lookup "account" kwargs = some v ∧ v.isInstInt = false := by
        by_contra hno
        have hac : ∀ v, List.lookup "account" kwargs = some v → v.isInstInt = true := by
          intro v hv
          by_contra hb
          exact hno ⟨v, hv, by simpa using hb⟩
        rw [badTyped_eq_false kwargs hct hcb hac] at h
        exact Bool.false_ne_true h
      obtain ⟨v, hv, hvb⟩ := bad3
      have hv' : List.lookup "account"
          (removeKey (removeKey kwargs "calltype") "callbilling") = some v := by
        rw [lookup_removeKey _ _ _ (by decide), lookup_removeKey _ _ _ (by decide)]
        exact hv
      refine ⟨msgAccountInt, ?_, by decide⟩
      simp only [processExtras]
      rw [e1]
      simp only []
      rw [e2]
      simp [popKey, hv', hvb]

/-- `processExtras` agrees with the spec's extras rules: it errors with a
message of the first violated rule, and succeeds when none is violated. -/
theorem processExtras_classify (params kwargs : List (String × Value)) :
    (∀ r, specExtrasRule kwargs = some r →
      ∃ e, processExtras params kwargs = Except.error e ∧ ruleMsgs r e = true) ∧
    (specExtrasRule kwargs = Option.none →
      ∃ p, processExtras params kwargs = Except.ok p) := by
  by_cases hb : badTyped kwargs = true
  · refine ⟨?_, ?_⟩
    · intro r hr
      simp [specExtrasRule, hb] at hr
      subst hr
      exact processExtras_badTyped params kwargs hb
    · intro hr
      simp [specExtrasRule, hb] at hr
  · have hbf : badTyped kwargs = false := by simpa using hb
    obtain ⟨hct, hcb, hac⟩ := typed_of_badTyped_false kwargs hbf
    cases hle : (extraLeftover kwargs).isEmpty with
    | false =>
      refine ⟨?_, ?_⟩
      · intro r hr
        simp [specExtrasRule, hbf, hle] at hr
        subst hr
        have hne : extraLeftover kwargs ≠ [] := by
          simpa [List.isEmpty_iff] using hle
        refine ⟨notAllowedMsg (extraLeftover kwargs),
          processExtras_unknown params kwargs hct hcb hac hne, ?_⟩
        simp [ruleMsgs, notAllowedMsg, String.data_append, isPrefixOf_append,
          String.toList]
      · intro hr
        simp [specExtrasRule, hbf, hle] at hr
    | true =>
      refine ⟨?_, ?_⟩
      · intro r hr
        simp [specExtrasRule, hbf, hle] at hr
      · intro _
        exact processExtras_allKnown params kwargs hct hcb hac
          (by simpa [List.isEmpty_iff] using hle)

/-- `checkFlagsAndBuild` agrees with the spec's rules from the timezone
check on: it errors with a message of the first violated rule, and
succeeds when none is violated. -/
theorem checkFlags_classify (sdf sdt : String) (tz a na b f : Value)
    (kwargs : List (String × Value)) :
    (∀ r, specFlagsRule tz a na b f kwargs = some r →
      ∃ e, checkFlagsAndBuild sdf sdt tz a na b f kwargs = Except.error e ∧
        ruleMsgs r e = true) ∧
    (specFlagsRule tz a na b f kwargs = Option.none →
      ∃ p, checkFlagsAndBuild sdf sdt tz a na b f kwargs = Except.ok p) := by
  by_cases htz : tz.isInstInt = true
  · by_cases hA : a.isInstBool = true
    · by_cases hNA : na.isInstBool = true
      · by_cases hB : b.isInstBool = true
        · by_cases hF : f.isInstBool = true
          · by_cases hone : (a.asBool || na.asBool || b.asBool || f.asBool) = true
            · have hx := processExtras_classify
                [("date_from", Value.str sdf), ("date_to", Value.str sdt), ("timezone", tz),
                 ("answered", Value.str (convert_bool a.asBool)),
                 ("noanswer", Value.str (convert_bool na.asBool)),
                 ("busy", Value.str (convert_bool b.asBool)),
                 ("failed", Value.str (convert_bool f.asBool))] kwargs
              constructor
              · intro r hr
                simp only [specFlagsRule, htz, hA, hNA, hB, hF, hone] at hr
                simp only [Bool.not_true, Bool.or_self, if_neg, Bool.false_eq_true,
                  not_false_eq_true, if_false] at hr
                have hr' : specExtrasRule kwargs = some r := by
                  simpa using hr
                have := hx.1 r hr'
                simpa [checkFlagsAndBuild, htz, hA, hNA, hB, hF, hone] using this
              · intro hr
                simp only [specFlagsRule, htz, hA, hNA, hB, hF, hone] at hr
                have hr' : specExtrasRule kwargs = Option.none := by
                  simpa using hr
                have := hx.2 hr'
                simpa [checkFlagsAndBuild, htz, hA, hNA, hB, hF, hone] using this
            · have honef : (a.asBool || na.asBool || b.asBool || f.asBool) = false := by
                simpa using hone
              constructor
              · intro r hr
                simp [specFlagsRule, htz, hA, hNA, hB, hF, honef] at hr
                subst hr
                exact ⟨msgNoCallStatus,
                  by simp [checkFlagsAndBuild, htz, hA, hNA, hB, hF, honef], by decide⟩
              · intro hr
                simp [specFlagsRule, htz, hA, hNA, hB, hF, honef] at hr
          · have hFf : f.isInstBool = false := by simpa using hF
            constructor
            · intro r hr
              simp [specFlagsRule, htz, hA, hNA, hB, hFf] at hr
              subst hr
              exact ⟨msgFailedBool,
                by simp [checkFlagsAndBuild, htz, hA, hNA, hB, hFf], by decide⟩
            · intro hr
              simp [specFlagsRule, htz, hA, hNA, hB, hFf] at hr
        · have hBf : b.isInstBool = false := by simpa using hB
          constructor
          · intro r hr
            simp [specFlagsRule, htz, hA, hNA, hBf] at hr
            subst hr
            exact ⟨msgBusyBool,
              by simp [checkFlagsAndBuild, htz, hA, hNA, hBf], by decide⟩
          · intro hr
            simp [specFlagsRule, htz, hA, hNA, hBf] at hr
      · have hNAf : na.isInstBool = false := by simpa using hNA
        constructor
        · intro r hr
          simp [specFlagsRule, htz, hA, hNAf] at hr
          subst hr
          exact ⟨msgNoanswerBool,
            by simp [checkFlagsAndBuild, htz, hA, hNAf], by decide⟩
        · intro hr
          simp [specFlagsRule, htz, hA, hNAf] at hr
    · have hAf : a.isInstBool = false := by simpa using hA
      constructor
      · intro r hr
        simp [specFlagsRule, htz, hAf] at hr
        subst hr
        exact ⟨msgAnsweredBool,
          by simp [checkFlagsAndBuild, htz, hAf], by decide⟩
      · intro hr
        simp [specFlagsRule, htz, hAf] at hr
  · have htzf : tz.isInstInt = false := by simpa using htz
    constructor
    · intro r hr
      simp [specFlagsRule, htzf] at hr
      subst hr
      exact ⟨msgTimezoneInt, by simp [checkFlagsAndBuild, htzf], by decide⟩
    · intro hr
      simp [specFlagsRule, htzf] at hr

theorem validate_date_error_msg (s e : String)
    (h : validate_date s = Except.error e) :
    e = "The date needs to be a valid date in the format YYYY-MM-DD" := by
  unfold validate_date at h
  split at h
  · split at h
    · dsimp only [] at h
      split at h
      · simp at h
      · simp at h
        exact h.symm
    · simp at h
      exact h.symm
  · simp at h
    exact h.symm

/-- C2: every call to `get_cdr` either passes all validation and makes
exactly one delegated call (returning the transport's result), or raises
a validation error with an empty delegated-call trace, whatever the
transport does — so no validation error is ever raised after a delegated
call, and no call occurs on a validation error. -/
theorem get_cdr_one_call_or_none (now : PyDateTime)
    (transport : String → List (String × Value) → Value)
    (df dt tz a na b f : Value) (kwargs : List (String × Value)) :
    (∃ p, get_cdr_run now df dt tz a na b f kwargs = Except.ok p ∧
      get_cdr now transport df dt tz a na b f kwargs =
        (Except.ok (transport "getCDR" p), [("getCDR", p)])) ∨
    (∃ e, get_cdr_run now df dt tz a na b f kwargs = Except.error e ∧
      ∀ t2, get_cdr now t2 df dt tz a na b f kwargs = (Except.error e, [])) := by
  cases h : get_cdr_run now df dt tz a na b f kwargs with
  | ok p => exact Or.inl ⟨p, rfl, by simp [get_cdr, h]⟩
  | error e => exact Or.inr ⟨e, rfl, fun t2 => by simp [get_cdr, h]⟩

/-- C7: `get_cdr` checks its validation rules in the spec's stated order:
whenever the first violated rule of the spec's list is `r`, the code
raises an error belonging to rule `r`, and when no rule is violated the
code succeeds. -/
theorem get_cdr_validation_order (now : PyDateTime) (df dt tz a na b f : Value)
    (kwargs : List (String × Value)) :
    (∀ r, specFirstViolation now df dt tz a na b f kwargs = some r →
      ∃ e, get_cdr_run now df dt tz a na b f kwargs = Except.error e ∧
        ruleMsgs r e = true) ∧
    (specFirstViolation now df dt tz a na b f kwargs = Option.none →
      ∃ p, get_cdr_run now df dt tz a na b f kwargs = Except.ok p) := by
  cases df with
  | int i =>
    refine ⟨fun r hr => ?_, fun hr => by simp [specFirstViolation] at hr⟩
    simp [specFirstViolation] at hr
    subst hr
    exact ⟨msgDateFromStr, by simp [get_cdr_run], by decide⟩
  | bool b0 =>
    refine ⟨fun r hr => ?_, fun hr => by simp [specFirstViolation] at hr⟩
    simp [specFirstViolation] at hr
    subst hr
    exact ⟨msgDateFromStr, by simp [get_cdr_run], by decide⟩
  | none =>
    refine ⟨fun r hr => ?_, fun hr => by simp [specFirstViolation] at hr⟩
    simp [specFirstViolation] at hr
    subst hr
    exact ⟨msgDateFromStr, by simp [get_cdr_run], by decide⟩
  | str sdf =>
    cases dt with
    | int i =>
      refine ⟨fun r hr => ?_, fun hr => by simp [specFirstViolation] at hr⟩
      simp [specFirstViolation] at hr
      subst hr
      exact ⟨msgDateToStr, by simp [get_cdr_run], by decide⟩
    | bool b0 =>
      refine ⟨fun r hr => ?_, fun hr => by simp [specFirstViolation] at hr⟩
      simp [specFirstViolation] at hr
      subst hr
      exact ⟨msgDateToStr, by simp [get_cdr_run], by decide⟩
    | none =>
      refine ⟨fun r hr => ?_, fun hr => by simp [specFirstViolation] at hr⟩
      simp [specFirstViolation] at hr
      subst hr
      exact ⟨msgDateToStr, by simp [get_cdr_run], by decide⟩
    | str sdt =>
      cases hv1 : validate_date sdf with
      | error e1 =>
        refine ⟨fun r hr => ?_, fun hr => by simp [specFirstViolation, hv1] at hr⟩
        simp [specFirstViolation, hv1] at hr
        subst hr
        refine ⟨e1, by simp [get_cdr_run, hv1], ?_⟩
        rw [validate_date_error_msg sdf e1 hv1]
        decide
      | ok d1 =>
        cases hv2 : validate_date sdt with
        | error e2 =>
          refine ⟨fun r hr => ?_, fun hr => by simp [specFirstViolation, hv1, hv2] at hr⟩
          simp [specFirstViolation, hv1, hv2] at hr
          subst hr
          refine ⟨e2, by simp [get_cdr_run, hv1, hv2], ?_⟩
          rw [validate_date_error_msg sdt e2 hv2]
          decide
        | ok d2 =>
          by_cases hord : PyDateTime.ltb d2 d1 = true
          · refine ⟨fun r hr => ?_,
              fun hr => by simp [specFirstViolation, hv1, hv2, hord] at hr⟩
            simp [specFirstViolation, hv1, hv2, hord] at hr
            subst hr
            exact ⟨msgDateOrder, by simp [get_cdr_run, hv1, hv2, hord], by decide⟩
          · have hordf : PyDateTime.ltb d2 d1 = false := by simpa using hord
            by_cases hfut : PyDateTime.ltb now d2 = true
            · refine ⟨fun r hr => ?_,
                fun hr => by simp [specFirstViolation, hv1, hv2, hordf, hfut] at hr⟩
              simp [specFirstViolation, hv1, hv2, hordf, hfut] at hr
              subst hr
              exact ⟨msgDateFuture,
                by simp [get_cdr_run, hv1, hv2, hordf, hfut], by decide⟩
            · have hfutf : PyDateTime.ltb now d2 = false := by simpa using hfut
              have hx := checkFlags_classify sdf sdt tz a na b f kwargs
              constructor
              · intro r hr
                simp [specFirstViolation, hv1, hv2, hordf, hfutf] at hr
                obtain ⟨e, he, hm⟩ := hx.1 r hr
                exact ⟨e, by simp [get_cdr_run, hv1, hv2, hordf, hfutf, he], hm⟩
              · intro hr
                simp [specFirstViolation, hv1, hv2, hordf, hfutf] at hr
                obtain ⟨p, hp⟩ := hx.2 hr
                exact ⟨p, by simp [get_cdr_run, hv1, hv2, hordf, hfutf, hp]⟩

/-- C1 (as stated) is false on the code: at the integer client `0`
(falsy in Python) the forwarded mapping is empty, so it does not contain
the key "client"; and at the falsy non-integer client `""` no validation
error is raised. -/
theorem get_call_accounts_claim_cex :
    get_call_accounts (Value.int 0) = Except.ok ("getCallAccounts", []) ∧
    get_call_accounts (Value.str "") = Except.ok ("getCallAccounts", []) :=
  ⟨rfl, rfl⟩

/-- C1 (amended): for every nonzero integer client, `get_call_accounts`
forwards a mapping containing ("client", client); for every truthy
non-integer client a validation error is raised and nothing is forwarded;
every falsy client (such as 0) is accepted with an empty forwarded
mapping. -/
theorem get_call_accounts_client (n : Int) (hn : n ≠ 0) (v : Value)
    (hv : v.truthy = true) (hvi : v.isInstInt = false)
    (w : Value) (hw : w.truthy = false) :
    get_call_accounts (Value.int n) =
      Except.ok ("getCallAccounts", [("client", Value.int n)]) ∧
    get_call_accounts v = Except.error msgClientInt ∧
    get_call_accounts w = Except.ok ("getCallAccounts", []) := by
  refine ⟨?_, ?_, ?_⟩
  · have ht : (Value.int n).truthy = true := by simp [Value.truthy, hn]
    simp [get_call_accounts, ht, Value.isInstInt]
  · simp [get_call_accounts, hv, hvi]
  · simp [get_call_accounts, hw]

theorem get_call_accounts_client_witness :
    get_call_accounts (Value.int 561115) =
      Except.ok ("getCallAccounts", [("client", Value.int 561115)]) ∧
    get_call_accounts (Value.str "x") = Except.error msgClientInt ∧
    get_call_accounts Value.none = Except.ok ("getCallAccounts", []) :=
  get_call_accounts_client 561115 (by decide) (Value.str "x") (by decide) (by decide)
    Value.none (by decide)

/-- C3: with all earlier validation passing and every present whitelisted
extra well-typed, a kwargs mapping with at least one unrecognized key is
rejected with the message listing every unrecognized key space-separated
in insertion order, collected at once; in particular the extras
{calltype: "x", bogus: 1} yield a message containing "bogus" and not
"calltype". -/
theorem get_cdr_unknown_keys (now : PyDateTime) (sdf sdt : String)
    (d1 d2 : PyDateTime) (tz a na b f : Value) (kwargs : List (String × Value))
    (hv1 : validate_date sdf = Except.ok d1) (hv2 : validate_date sdt = Except.ok d2)
    (hord : PyDateTime.ltb d2 d1 = false) (hfut : PyDateTime.ltb now d2 = false)
    (htz : tz.isInstInt = true) (hA : a.isInstBool = true) (hNA : na.isInstBool = true)
    (hB : b.isInstBool = true) (hF : f.isInstBool = true)
    (hone : (a.asBool || na.asBool || b.asBool || f.asBool) = true)
    (hct : ∀ v, List.lookup "calltype" kwargs = some v → v.isInstStr = true)
    (hcb : ∀ v, List.lookup "callbilling" kwargs = some v → v.isInstStr = true)
    (hac : ∀ v, List.lookup "account" kwargs = some v → v.isInstInt = true)
    (hleft : extraLeftover kwargs ≠ []) :
    get_cdr_run now (Value.str sdf) (Value.str sdt) tz a na b f kwargs =
      Except.error (notAllowedMsg (extraLeftover kwargs)) ∧
    (∃ e, get_cdr_run exampleNow (Value.str "2020-01-01") (Value.str "2020-01-31")
        (Value.int (-5)) (Value.bool true) (Value.bool false) (Value.bool false)
        (Value.bool false) [("calltype", Value.str "x"), ("bogus", Value.int 1)] =
        Except.error e ∧ strContains e "bogus" = true ∧
        strContains e "calltype" = false) := by
  constructor
  · have hpe := processExtras_unknown
      [("date_from", Value.str sdf), ("date_to", Value.str sdt), ("timezone", tz),
       ("answered", Value.str (convert_bool a.asBool)),
       ("noanswer", Value.str (convert_bool na.asBool)),
       ("busy", Value.str (convert_bool b.asBool)),
       ("failed", Value.str (convert_bool f.asBool))] kwargs hct hcb hac hleft
    simp [get_cdr_run, hv1, hv2, hord, hfut, checkFlagsAndBuild,
      htz, hA, hNA, hB, hF, hone, hpe]
  · exact ⟨"Parameters not allowed: bogus ", rfl, by decide, by decide⟩

theorem get_cdr_unknown_keys_witness :
    get_cdr_run exampleNow (Value.str "2020-01-01") (Value.str "2020-01-31") (Value.int (-5))
      (Value.bool true) (Value.bool false) (Value.bool false) (Value.bool false)
      [("bogus", Value.int 1)] =
      Except.error (notAllowedMsg (extraLeftover [("bogus", Value.int 1)])) :=
  (get_cdr_unknown_keys exampleNow "2020-01-01" "2020-01-31" ⟨2020, 1, 1, 0⟩ ⟨2020, 1, 31, 0⟩
    (Value.int (-5)) (Value.bool true) (Value.bool false) (Value.bool false) (Value.bool false)
    [("bogus", Value.int 1)] rfl rfl rfl rfl rfl rfl rfl rfl rfl rfl
    (fun v hv => by simp [List.lookup] at hv)
    (fun v hv => by simp [List.lookup] at hv)
    (fun v hv => by simp [List.lookup] at hv)
    (by decide)).1

/-- C4: with valid dates and timezone, four boolean flags all false make
`get_cdr` raise the at-least-one-flag error; any boolean combination with
at least one flag true passes that rule, proceeding to the optional-filter
handling. -/
theorem get_cdr_status_flags (now : PyDateTime) (sdf sdt : String)
    (d1 d2 : PyDateTime) (tz : Value) (kwargs : List (String × Value))
    (hv1 : validate_date sdf = Except.ok d1) (hv2 : validate_date sdt = Except.ok d2)
    (hord : PyDateTime.ltb d2 d1 = false) (hfut : PyDateTime.ltb now d2 = false)
    (htz : tz.isInstInt = true) :
    (get_cdr_run now (Value.str sdf) (Value.str sdt) tz (Value.bool false)
      (Value.bool false) (Value.bool false) (Value.bool false) kwargs =
      Except.error msgNoCallStatus) ∧
    (∀ ab nb bb fb : Bool, (ab || nb || bb || fb) = true →
      get_cdr_run now (Value.str sdf) (Value.str sdt) tz (Value.bool ab)
        (Value.bool nb) (Value.bool bb) (Value.bool fb) kwargs =
      processExtras
        [("date_from", Value.str sdf), ("date_to", Value.str sdt), ("timezone", tz),
         ("answered", Value.str (convert_bool ab)),
         ("noanswer", Value.str (convert_bool nb)),
         ("busy", Value.str (convert_bool bb)),
         ("failed", Value.str (convert_bool fb))] kwargs) := by
  constructor
  · simp [get_cdr_run, hv1, hv2, hord, hfut, checkFlagsAndBuild, htz,
      Value.isInstBool, Value.asBool]
  · intro ab nb bb fb hone
    simp [get_cdr_run, hv1, hv2, hord, hfut, checkFlagsAndBuild, htz,
      Value.isInstBool, Value.asBool, hone]

theorem get_cdr_status_flags_witness :
    get_cdr_run exampleNow (Value.str "2020-01-01") (Value.str "2020-01-31") (Value.int (-5))
      (Value.bool false) (Value.bool false) (Value.bool false) (Value.bool false) [] =
      Except.error msgNoCallStatus ∧
    get_cdr_run exampleNow (Value.str "2020-01-01") (Value.str "2020-01-31") (Value.int (-5))
      (Value.bool true) (Value.bool false) (Value.bool false) (Value.bool false) [] =
      processExtras
        [("date_from", Value.str "2020-01-01"), ("date_to", Value.str "2020-01-31"),
         ("timezone", Value.int (-5)),
         ("answered", Value.str (convert_bool true)),
         ("noanswer", Value.str (convert_bool false)),
         ("busy", Value.str (convert_bool false)),
         ("failed", Value.str (convert_bool false))] [] := by
  have h := get_cdr_status_flags exampleNow "2020-01-01" "2020-01-31"
    ⟨2020, 1, 1, 0⟩ ⟨2020, 1, 31, 0⟩ (Value.int (-5)) [] rfl rfl rfl rfl rfl
  exact ⟨h.1, h.2 true false false false rfl⟩

/-- C5: for parseable date strings whose parsed start date is strictly
later than the parsed end date, `get_cdr` raises the date-ordering error
and makes no delegated call, whatever the transport and remaining
arguments. -/
theorem get_cdr_date_order (now : PyDateTime)
    (transport : String → List (String × Value) → Value)
    (sdf sdt : String) (d1 d2 : PyDateTime) (tz a na b f : Value)
    (kwargs : List (String × Value))
    (hv1 : validate_date sdf = Except.ok d1) (hv2 : validate_date sdt = Except.ok d2)
    (hord : PyDateTime.ltb d2 d1 = true) :
    get_cdr now transport (Value.str sdf) (Value.str sdt) tz a na b f kwargs =
      (Except.error msgDateOrder, []) := by
  simp [get_cdr, get_cdr_run, hv1, hv2, hord]

theorem get_cdr_date_order_witness :
    get_cdr exampleNow (fun _ _ => Value.none) (Value.str "2020-02-01")
      (Value.str "2020-01-01") (Value.int (-5)) (Value.bool true) (Value.bool false)
      (Value.bool false) (Value.bool false) [] = (Except.error msgDateOrder, []) :=
  get_cdr_date_order exampleNow (fun _ _ => Value.none) "2020-02-01" "2020-01-01"
    ⟨2020, 2, 1, 0⟩ ⟨2020, 1, 1, 0⟩ (Value.int (-5)) (Value.bool true) (Value.bool false)
    (Value.bool false) (Value.bool false) [] rfl rfl rfl

/-- C6: with parseable, correctly-ordered dates, a parsed end date
strictly after the current date-time is rejected with the future-date
error and no delegated call; an end date not after the current date-time
passes this rule and processing continues with the remaining checks. -/
theorem get_cdr_future_date (now : PyDateTime) (sdf sdt : String)
    (d1 d2 : PyDateTime) (tz a na b f : Value) (kwargs : List (String × Value))
    (hv1 : validate_date sdf = Except.ok d1) (hv2 : validate_date sdt = Except.ok d2)
    (hord : PyDateTime.ltb d2 d1 = false) :
    (PyDateTime.ltb now d2 = true →
      ∀ transport, get_cdr now transport (Value.str sdf) (Value.str sdt) tz a na b f kwargs =
        (Except.error msgDateFuture, [])) ∧
    (PyDateTime.ltb now d2 = false →
      get_cdr_run now (Value.str sdf) (Value.str sdt) tz a na b f kwargs =
        checkFlagsAndBuild sdf sdt tz a na b f kwargs) := by
  constructor
  · intro hfut transport
    simp [get_cdr, get_cdr_run, hv1, hv2, hord, hfut]
  · intro hfut
    simp [get_cdr_run, hv1, hv2, hord, hfut]

theorem get_cdr_future_date_witness :
    get_cdr ⟨2020, 1, 15, 0⟩ (fun _ _ => Value.none) (Value.str "2020-01-01")
      (Value.str "2020-01-31") (Value.int (-5)) (Value.bool true) (Value.bool false)
      (Value.bool false) (Value.bool false) [] = (Except.error msgDateFuture, []) :=
  (get_cdr_future_date ⟨2020, 1, 15, 0⟩ "2020-01-01" "2020-01-31" ⟨2020, 1, 1, 0⟩
    ⟨2020, 1, 31, 0⟩ (Value.int (-5)) (Value.bool true) (Value.bool false)
    (Value.bool false) (Value.bool false) [] rfl rfl rfl).1 rfl (fun _ _ => Value.none)

/-- C8: when the current date-time is not before 2020-01-31, the spec's
worked example call forwards exactly `exampleParams` (flags serialized
through `convert_bool`) to the transport's "getCDR" method, once, and
returns the transport's result unchanged. -/
theorem get_cdr_example_forwarding (now : PyDateTime)
    (hnow : PyDateTime.ltb now ⟨2020, 1, 31, 0⟩ = false)
    (transport : String → List (String × Value) → Value) :
    get_cdr now transport (Value.str "2020-01-01") (Value.str "2020-01-31") (Value.int (-5))
      (Value.bool true) (Value.bool false) (Value.bool false) (Value.bool false) [] =
      (Except.ok (transport "getCDR" exampleParams), [("getCDR", exampleParams)]) := by
  have h1 : validate_date "2020-01-01" = Except.ok ⟨2020, 1, 1, 0⟩ := rfl
  have h2 : validate_date "2020-01-31" = Except.ok ⟨2020, 1, 31, 0⟩ := rfl
  have h3 : PyDateTime.ltb ⟨2020, 1, 31, 0⟩ ⟨2020, 1, 1, 0⟩ = false := rfl
  have h4 : checkFlagsAndBuild "2020-01-01" "2020-01-31" (Value.int (-5)) (Value.bool true)
      (Value.bool false) (Value.bool false) (Value.bool false) [] =
      Except.ok exampleParams := rfl
  have hrun : get_cdr_run now (Value.str "2020-01-01") (Value.str "2020-01-31")
      (Value.int (-5)) (Value.bool true) (Value.bool false) (Value.bool false)
      (Value.bool false) [] = Except.ok exampleParams := by
    simp [get_cdr_run, h1, h2, h3, hnow, h4]
  simp [get_cdr, hrun]

theorem get_cdr_example_forwarding_witness :
    get_cdr ⟨2020, 1, 31, 0⟩ (fun _ _ => Value.none) (Value.str "2020-01-01")
      (Value.str "2020-01-31") (Value.int (-5)) (Value.bool true) (Value.bool false)
      (Value.bool false) (Value.bool false) [] =
      (Except.ok Value.none, [("getCDR", exampleParams)]) :=
  get_cdr_example_forwarding ⟨2020, 1, 31, 0⟩ rfl (fun _ _ => Value.none)

/-- C9: every falsy client (0, "", False, None, ...) makes
`get_call_accounts` and `get_call_types` succeed with an empty forwarded
parameter mapping: falsy non-integers raise no error, and the integer 0
is never included in the forwarded mapping. -/
theorem falsy_client_empty_params (v : Value) (h : v.truthy = false) :
    get_call_accounts v = Except.ok ("getCallAccounts", []) ∧
    get_call_types v = Except.ok ("getCallTypes", []) := by
  simp [get_call_accounts, get_call_types, h]

theorem falsy_client_empty_params_witness :
    (get_call_accounts (Value.int 0) = Except.ok ("getCallAccounts", []) ∧
      get_call_types (Value.int 0) = Except.ok ("getCallTypes", [])) ∧
    (get_call_accounts (Value.str "") = Except.ok ("getCallAccounts", []) ∧
      get_call_types (Value.str "") = Except.ok ("getCallTypes", [])) ∧
    (get_call_accounts (Value.bool false) = Except.ok ("getCallAccounts", []) ∧
      get_call_types (Value.bool false) = Except.ok ("getCallTypes", [])) ∧
    (get_call_accounts Value.none = Except.ok ("getCallAccounts", []) ∧
      get_call_types Value.none = Except.ok ("getCallTypes", [])) :=
  ⟨falsy_client_empty_params (Value.int 0) rfl,
   falsy_client_empty_params (Value.str "") rfl,
   falsy_client_empty_params (Value.bool false) rfl,
   falsy_client_empty_params Value.none rfl⟩

/-- C10: booleans satisfy the integer type checks (Python's bool is a
subclass of int): True or False as `timezone`, True or False as the extra
`account`, and True as `client` all pass validation, and the boolean is
forwarded unchanged under that key. -/
theorem bool_passes_int_checks :
    (∀ tb : Bool,
      get_cdr_run exampleNow (Value.str "2020-01-01") (Value.str "2020-01-31")
        (Value.bool tb) (Value.bool true) (Value.bool false) (Value.bool false)
        (Value.bool false) [] =
      Except.ok
        [("date_from", Value.str "2020-01-01"), ("date_to", Value.str "2020-01-31"),
         ("timezone", Value.bool tb),
         ("answered", Value.str (convert_bool true)),
         ("noanswer", Value.str (convert_bool false)),
         ("busy", Value.str (convert_bool false)),
         ("failed", Value.str (convert_bool false))]) ∧
    (∀ ab : Bool,
      get_cdr_run exampleNow (Value.str "2020-01-01") (Value.str "2020-01-31")
        (Value.int (-5)) (Value.bool true) (Value.bool false) (Value.bool false)
        (Value.bool false) [("account", Value.bool ab)] =
      Except.ok (exampleParams ++ [("account", Value.bool ab)])) ∧
    get_call_accounts (Value.bool true) =
      Except.ok ("getCallAccounts", [("client", Value.bool true)]) := by
  refine ⟨fun tb => ?_, fun ab => ?_, rfl⟩
  · cases tb <;> rfl
  · cases ab <;> rfl

theorem get_cdr_validation_order_witness :
    ∃ e, get_cdr_run exampleNow (Value.int 7) (Value.str "2020-01-31") (Value.str "x")
      Value.none (Value.int 2) (Value.int 3) (Value.int 4) [] = Except.error e ∧
      ruleMsgs RuleId.dateFromStr e = true :=
  (get_cdr_validation_order exampleNow (Value.int 7) (Value.str "2020-01-31") (Value.str "x")
    Value.none (Value.int 2) (Value.int 3) (Value.int 4) []).1 RuleId.dateFromStr rfl
